import Mathlib

/-!
Shallow embedding of the recommendation engine of the `elegance-fashion`
backend (`backend/app/recommendation_service.py` and
`backend/app/routers/recommendations.py`), together with theorems checking
the natural-language specification against it.

Modelling conventions:
* A catalog / ledger snapshot is a `DB` value; `db.products` is the row
  order of the `products` table (the order returned by
  `db.query(Product).all()`), `db.interactions` the row order of the
  `user_interactions` table, and `db.now` the current time.
* Timestamps are integers counted in days, so `datetime.utcnow() -
  timedelta(days=30)` becomes `db.now - 30`.
* SQL `ORDER BY`/Python `sorted`/`list.sort` are modelled with the stable
  `List.insertionSort`; ties keep the underlying row order.
* Python's process-randomized `hash` is an arbitrary parameter
  `pyhash : String → ℤ`.
* `SKLEARN_AVAILABLE` is a parameter `sklearn : Bool`.
* Floats (`price`, `rating`, interaction weights) are modelled by `ℚ`;
  the feature pipeline, which uses `log1p` and standardization, lives in `ℝ`,
  and nearest neighbors are ordered by squared Euclidean distance, which
  orders identically to the Euclidean metric under the monotone square root.
-/

/-- Product rows: the columns of `app.models.Product` that the
recommendation engine reads. -/
structure Product where
  id : String
  category : String
  sub_category : Option String
  price : ℚ
  rating : ℚ
  reviews : ℕ
  colors : List String
  sizes : List String
  deriving DecidableEq, Repr, Inhabited

/-- Interaction rows: the columns of `app.models.UserInteraction`. -/
structure UserInteraction where
  user_id : Option ℕ
  session_id : Option String
  product_id : String
  interaction_type : String
  created_at : ℤ
  deriving DecidableEq, Repr, Inhabited

/-- A database snapshot: products table, interaction ledger, current time. -/
structure DB where
  products : List Product
  interactions : List UserInteraction
  now : ℤ
  deriving Repr

/-- Python truthiness of the optional `user_id` argument (`if user_id:`);
`0` is falsy in Python. -/
def truthyUser : Option ℕ → Bool
  | none => false
  | some u => u != 0

/-- Python truthiness of the optional `session_id` argument
(`elif session_id:`); the empty string is falsy in Python. -/
def truthySession : Option String → Bool
  | none => false
  | some s => s != ""

/-- Interactions of the last `days` days:
`filter(UserInteraction.created_at >= cutoff_date)`. -/
def windowInteractions (db : DB) (days : ℤ) : List UserInteraction :=
  db.interactions.filter (fun i => db.now - days ≤ i.created_at)

/-- Number of interactions with product `pid` in the last 7 days: the
`interaction_counts` subquery of `get_trending_products`, with
`coalesce(count, 0)` for products without interactions. -/
def interactionCount7 (db : DB) (pid : String) : ℕ :=
  (windowInteractions db 7).countP (fun i => i.product_id == pid)

/-- The `ORDER BY` key of the trending query, as a "may precede" relation:
interaction count desc, rating desc, review count desc. -/
def trendLE (db : DB) (p q : Product) : Prop :=
  interactionCount7 db q.id < interactionCount7 db p.id ∨
    (interactionCount7 db q.id = interactionCount7 db p.id ∧
      (q.rating < p.rating ∨ (q.rating = p.rating ∧ q.reviews ≤ p.reviews)))

instance (db : DB) : DecidableRel (trendLE db) := fun p q => by
  unfold trendLE; infer_instance

instance (db : DB) : IsTotal Product (trendLE db) := by
  constructor
  intro p q
  unfold trendLE
  rcases lt_trichotomy (interactionCount7 db q.id) (interactionCount7 db p.id) with h | h | h
  · exact Or.inl (Or.inl h)
  · rcases lt_trichotomy q.rating p.rating with h2 | h2 | h2
    · exact Or.inl (Or.inr ⟨h, Or.inl h2⟩)
    · rcases le_total q.reviews p.reviews with h3 | h3
      · exact Or.inl (Or.inr ⟨h, Or.inr ⟨h2, h3⟩⟩)
      · exact Or.inr (Or.inr ⟨h.symm, Or.inr ⟨h2.symm, h3⟩⟩)
    · exact Or.inr (Or.inr ⟨h.symm, Or.inl h2⟩)
  · exact Or.inr (Or.inl h)

instance (db : DB) : IsTrans Product (trendLE db) := by
  constructor
  intro p q r h1 h2
  unfold trendLE at *
  rcases h1 with h1 | ⟨h1e, h1r⟩
  · rcases h2 with h2 | ⟨h2e, _⟩
    · exact Or.inl (h2.trans h1)
    · exact Or.inl (h2e ▸ h1)
  · rcases h2 with h2 | ⟨h2e, h2r⟩
    · exact Or.inl (h1e ▸ h2)
    · refine Or.inr ⟨h2e.trans h1e, ?_⟩
      rcases h1r with h1r | ⟨h1re, h1rv⟩
      · rcases h2r with h2r | ⟨h2re, _⟩
        · exact Or.inl (h2r.trans h1r)
        · exact Or.inl (h2re ▸ h1r)
      · rcases h2r with h2r | ⟨h2re, h2rv⟩
        · exact Or.inl (h1re ▸ h2r)
        · exact Or.inr ⟨h2re.trans h1re, h2rv.trans h1rv⟩

/-- Models `ORDER BY rating DESC, reviews DESC` (the padding query of
`get_trending_products`). -/
def ratingReviewsLE (p q : Product) : Prop :=
  q.rating < p.rating ∨ (q.rating = p.rating ∧ q.reviews ≤ p.reviews)

instance : DecidableRel ratingReviewsLE := fun p q => by
  unfold ratingReviewsLE; infer_instance

/-- Models `ORDER BY rating DESC` (complete-the-look, weighted and
category-fallback queries). -/
def ratingLE (p q : Product) : Prop := q.rating ≤ p.rating

instance : DecidableRel ratingLE := fun p q => by
  unfold ratingLE; infer_instance

/-- Models `ORDER BY created_at DESC`: newest first, ties keep ledger order. -/
def byCreatedDesc (i j : UserInteraction) : Prop := j.created_at ≤ i.created_at

instance : DecidableRel byCreatedDesc := fun i j => by
  unfold byCreatedDesc; infer_instance

/-- Models `KNNRecommendationService.get_trending_products`: every product, ordered
by (7-day interaction count desc, rating desc, reviews desc), truncated to
`limit`; then, if fewer than `limit` rows came back, padded with the
highest-rated products not already present. -/
def get_trending_products (db : DB) (limit : ℕ) : List Product :=
  let trending := ((db.products.insertionSort (trendLE db)).take limit)
  if trending.length < limit then
    let additional :=
      ((db.products.filter
          (fun p => !((trending.map (fun q => q.id)).contains p.id))).insertionSort
        ratingReviewsLE).take (limit - trending.length)
    trending ++ additional
  else
    trending

/-- Models `KNNRecommendationService.track_interaction`: append one interaction row
(timestamped with the current time) and return it. -/
def track_interaction (db : DB) (product_id interaction_type : String)
    (user_id : Option ℕ) (session_id : Option String) : UserInteraction × DB :=
  let i : UserInteraction :=
    { user_id := user_id, session_id := session_id, product_id := product_id,
      interaction_type := interaction_type, created_at := db.now }
  (i, { db with interactions := db.interactions ++ [i] })

/-! ## Recently viewed -/

/-- The dedup loop of `get_recently_viewed`: walk the recent views, keep each
product id on first sight, stop as soon as `limit` ids are collected. -/
def dedupViews (limit : ℕ) : List UserInteraction → List String → List String
  | [], seen => seen
  | i :: rest, seen =>
    let seen' := if seen.contains i.product_id then seen else seen ++ [i.product_id]
    if limit ≤ seen'.length then seen' else dedupViews limit rest seen'

/-- Models `{p.id: p for p in products}`: lookup in a Python dict comprehension,
where the last row with a given id wins. -/
def lookupLast (ps : List Product) (pid : String) : Option Product :=
  (ps.filter (fun p => p.id == pid)).getLast?

/-- Core of `get_recently_viewed` once the actor filter has been applied:
take the 50 most recent views, dedup their product ids most-recent-first up
to `limit`, fetch those products and reorder them by view order. -/
def recentlyViewedCore (db : DB) (views : List UserInteraction) (limit : ℕ) :
    List Product :=
  let recent_views := (views.insertionSort byCreatedDesc).take 50
  if recent_views.isEmpty then []
  else
    let seen := dedupViews limit recent_views []
    let fetched := db.products.filter (fun p => seen.contains p.id)
    seen.filterMap (fun pid => lookupLast fetched pid)

/-- Models `KNNRecommendationService.get_recently_viewed`. -/
def get_recently_viewed (db : DB) (user_id : Option ℕ) (session_id : Option String)
    (limit : ℕ) : List Product :=
  let views := db.interactions.filter (fun i => i.interaction_type == "view")
  if truthyUser user_id then
    recentlyViewedCore db (views.filter (fun i => i.user_id == user_id)) limit
  else if truthySession session_id then
    recentlyViewedCore db (views.filter (fun i => i.session_id == session_id)) limit
  else []

/-! ## Weighted personalized -/

/-- Models `INTERACTION_WEIGHTS` together with the `.get(interaction_type, 1.0)`
default. -/
def interactionWeight : String → ℚ
  | "purchase" => 5
  | "add_to_cart" => 3
  | "wishlist" => 2
  | "click" => mkRat 3 2
  | "view" => 1
  | _ => 1

/-- One step of the score accumulation:
`product_scores[pid] = product_scores.get(pid, 0) + w` on an
insertion-ordered dict modelled as an association list. -/
def addScore (acc : List (String × ℚ)) (pid : String) (w : ℚ) : List (String × ℚ) :=
  if acc.any (fun kv => kv.1 == pid) then
    acc.map (fun kv => if kv.1 == pid then (kv.1, kv.2 + w) else kv)
  else acc ++ [(pid, w)]

/-- The `product_scores` dict of
`get_weighted_personalized_recommendations`. -/
def productScores (ints : List UserInteraction) : List (String × ℚ) :=
  ints.foldl (fun acc i => addScore acc i.product_id (interactionWeight i.interaction_type)) []

/-- Models `product_scores[pid]` (with default 0; the code only queries present
keys). -/
def scoreOf (acc : List (String × ℚ)) (pid : String) : ℚ :=
  match acc.find? (fun kv => kv.1 == pid) with
  | some kv => kv.2
  | none => 0

/-- The comparison used to sort score-dict keys by score descending. -/
def scoreGE (scores : List (String × ℚ)) (a b : String) : Prop :=
  scoreOf scores b ≤ scoreOf scores a

instance (scores : List (String × ℚ)) : DecidableRel (scoreGE scores) := fun a b => by
  unfold scoreGE; infer_instance

/-- Models `top_product_ids`: keys of the score dict, sorted by score descending
(stable, so ties keep dict insertion order as in Python), first 5. -/
def topProductIds (ints : List UserInteraction) : List String :=
  let scores := productScores ints
  ((scores.map (fun kv => kv.1)).insertionSort (scoreGE scores)).take 5

/-- Models `top_products`: the catalog rows whose id is among `top_product_ids`. -/
def topProducts (db : DB) (ints : List UserInteraction) : List Product :=
  db.products.filter (fun p => (topProductIds ints).contains p.id)

/-- Models `preferred_categories = list(set(p.category for p in top_products))`;
Python's set iteration order is unspecified and the list is only used for
membership tests, so it is modelled by `dedup`. -/
def preferredCategories (db : DB) (ints : List UserInteraction) : List String :=
  ((topProducts db ints).map (fun p => p.category)).dedup

/-- Python `min` of a list the code knows to be nonempty. -/
def listMin (l : List ℚ) : ℚ := l.foldl min (l.headD 0)

/-- Python `max` of a list the code knows to be nonempty. -/
def listMax (l : List ℚ) : ℚ := l.foldl max (l.headD 0)

/-- Core of `get_weighted_personalized_recommendations` once the actor
filter has been applied. -/
def weightedCore (db : DB) (interactions : List UserInteraction) (n : ℕ) : List Product :=
  if interactions.isEmpty then get_trending_products db n
  else
    let scores := productScores interactions
    let top_products := topProducts db interactions
    if top_products.isEmpty then get_trending_products db n
    else
      let prices := top_products.map (fun p => p.price)
      let min_price := listMin prices * mkRat 7 10
      let max_price := listMax prices * mkRat 13 10
      let score_keys := scores.map (fun kv => kv.1)
      let preferred := preferredCategories db interactions
      let recommended := ((db.products.filter (fun p =>
          preferred.contains p.category && !(score_keys.contains p.id) &&
          decide (min_price ≤ p.price) && decide (p.price ≤ max_price))).insertionSort
        ratingLE).take n
      if recommended.length < n then
        let additional := ((db.products.filter (fun p =>
            preferred.contains p.category &&
            !((score_keys ++ recommended.map (fun q => q.id)).contains p.id))).insertionSort
          ratingLE).take (n - recommended.length)
        recommended ++ additional
      else recommended

/-- Models `KNNRecommendationService.get_weighted_personalized_recommendations`. -/
def get_weighted_personalized_recommendations (db : DB) (user_id : Option ℕ)
    (session_id : Option String) (n_recommendations : ℕ) : List Product :=
  let base := windowInteractions db 30
  if truthyUser user_id then
    weightedCore db (base.filter (fun i => i.user_id == user_id)) n_recommendations
  else if truthySession session_id then
    weightedCore db (base.filter (fun i => i.session_id == session_id)) n_recommendations
  else get_trending_products db n_recommendations

/-! ## Complete the look -/

/-- Models `s.lower()` (ASCII, as on the catalog data). -/
def pyLower (s : String) : String := ⟨s.data.map Char.toLower⟩

/-- Models `str.replace` for a single-character pattern (the code replaces `' '`
and `'_'` by `'-'`). -/
def replaceChar (c d : Char) (s : String) : String :=
  ⟨s.data.map (fun x => if x = c then d else x)⟩

/-- Models `leadMatch hay needle`: does `needle` occur at the head of `hay`? -/
def leadMatch : List Char → List Char → Bool
  | _, [] => true
  | [], _ :: _ => false
  | h :: hs, n :: ns => h == n && leadMatch hs ns

/-- Auxiliary for the substring test: does `needle` occur anywhere? -/
def hasSubAux (needle : List Char) : List Char → Bool
  | [] => leadMatch [] needle
  | h :: t => leadMatch (h :: t) needle || hasSubAux needle t

/-- Python `needle in hay` on strings: contiguous substring test. -/
def strIn (needle hay : String) : Bool := hasSubAux needle.data hay.data

/-- The static `COMPLEMENTARY_CATEGORIES` map of `get_complete_look`; the
inner maps keep source order because the code iterates over their keys. -/
def COMPLEMENTARY_CATEGORIES : List (String × List (String × List String)) :=
  [("women", [("dresses", ["accessories", "shoes"]),
              ("tops", ["pants", "skirts", "accessories"]),
              ("pants", ["tops", "shoes", "accessories"]),
              ("skirts", ["tops", "shoes", "accessories"]),
              ("shoes", ["accessories"]),
              ("accessories", ["tops", "dresses"])]),
   ("men", [("shirts", ["pants", "shoes", "accessories"]),
            ("pants", ["shirts", "shoes", "accessories"]),
            ("t-shirts", ["pants", "shoes"]),
            ("shoes", ["accessories"]),
            ("accessories", ["shirts", "pants"])]),
   ("kids", [("tops", ["pants", "shoes"]),
             ("pants", ["tops", "shoes"]),
             ("dresses", ["shoes", "accessories"])])]

/-- Models `for key in cat_map: if key in subcategory: complementary_subs =
cat_map[key]; break`: first key that is a substring of the normalized
subcategory. -/
def findComplementary (cat_map : List (String × List String)) (subcat : String) :
    List String :=
  match cat_map.find? (fun kv => strIn kv.1 subcat) with
  | some kv => kv.2
  | none => []

/-- Models `func.lower(Product.sub_category).contains(comp_sub)`: SQL `LIKE
'%comp_sub%'` on the lowered subcategory; a NULL subcategory never
matches. -/
def subMatches (p : Product) (comp_sub : String) : Bool :=
  match p.sub_category with
  | none => false
  | some s => strIn comp_sub (pyLower s)

/-- SQL `Product.sub_category != target_sub`: under SQL three-valued logic a
NULL row value never satisfies `!= 'x'`, while SQLAlchemy turns `!= None`
into `IS NOT NULL`. -/
def sqlSubNe (p : Product) (target_sub : Option String) : Bool :=
  match target_sub, p.sub_category with
  | none, ps => ps.isSome
  | some _, none => false
  | some x, some ps => ps != x

/-- The per-subcategory collection loop of `get_complete_look`: two
top-rated matches per complementary subcategory until `limit` is reached. -/
def collectComplementary (db : DB) (target : Product) (product_id : String) (limit : ℕ) :
    List String → List Product → List Product
  | [], acc => acc
  | cs :: rest, acc =>
    let batch := ((db.products.filter (fun p =>
        p.category == target.category && p.id != product_id &&
        subMatches p cs)).insertionSort ratingLE).take 2
    let acc' := acc ++ batch
    if limit ≤ acc'.length then acc'
    else collectComplementary db target product_id limit rest acc'

/-- The `category`/`subcategory` normalization and complementary-map lookup
of `get_complete_look`: lower-case the category, normalize the subcategory
(lower-case, spaces and underscores to dashes), then scan the matching
category map for the first key contained in the subcategory. -/
def complementarySubsFor (target : Product) : List String :=
  let category := pyLower target.category
  let subcategory :=
    replaceChar '_' '-' (replaceChar ' ' '-' (pyLower (target.sub_category.getD "")))
  match COMPLEMENTARY_CATEGORIES.find? (fun kv => kv.1 == category) with
  | some kv => findComplementary kv.2 subcategory
  | none => []

/-- Models `KNNRecommendationService.get_complete_look`. -/
def get_complete_look (db : DB) (product_id : String) (limit : ℕ) : List Product :=
  match db.products.find? (fun p => p.id == product_id) with
  | none => get_trending_products db limit
  | some target =>
    let complementary_subs := complementarySubsFor target
    if complementary_subs.isEmpty then
      ((db.products.filter (fun p =>
          p.category == target.category && p.id != product_id &&
          sqlSubNe p target.sub_category)).insertionSort ratingLE).take limit
    else
      let complementary_products :=
        collectComplementary db target product_id limit complementary_subs []
      let final :=
        if complementary_products.length < limit then
          complementary_products ++ ((db.products.filter (fun p =>
              p.category == target.category && p.id != product_id &&
              !((complementary_products.map (fun q => q.id)).contains p.id))).insertionSort
            ratingLE).take (limit - complementary_products.length)
        else complementary_products
      final.take limit

/-! ## Feature pipeline and KNN similarity -/

/-- Models `extract_product_features`: `[category hash mod 100, price, rating,
log1p(reviews), #colors, #sizes, subcategory hash mod 50]`. `hash` is the
parameter `pyhash` (Python string hashing is process-randomized); `%` on a
possibly negative hash with positive modulus matches `Int.emod`;
`if product.sub_category` is Python-falsy both for `None` and for `""`. -/
noncomputable def extract_product_features (pyhash : String → ℤ) (p : Product) :
    List ℝ :=
  [((pyhash p.category % 100 : ℤ) : ℝ),
   (p.price : ℝ),
   (p.rating : ℝ),
   Real.log (1 + (p.reviews : ℝ)),
   (p.colors.length : ℝ),
   (p.sizes.length : ℝ),
   (match p.sub_category with
    | some s => if s = "" then 0 else ((pyhash s % 50 : ℤ) : ℝ)
    | none => 0)]

/-- Column `j` of a row-major matrix. -/
def colVals (m : List (List ℝ)) (j : ℕ) : List ℝ := m.map (fun r => r.getD j 0)

/-- Column mean, as computed by `StandardScaler`. -/
noncomputable def colMean (xs : List ℝ) : ℝ := xs.sum / xs.length

/-- Column standard deviation (biased, over `n`), as computed by
`StandardScaler`. -/
noncomputable def colStd (xs : List ℝ) : ℝ :=
  Real.sqrt ((xs.map (fun x => (x - colMean xs) ^ 2)).sum / xs.length)

/-- Models `StandardScaler` replaces a zero scale by 1 to avoid division by 0. -/
noncomputable def colScale (xs : List ℝ) : ℝ :=
  if colStd xs = 0 then 1 else colStd xs

/-- Models `StandardScaler().fit_transform`: column-wise zero mean, unit
variance. -/
noncomputable def fit_transform (m : List (List ℝ)) : List (List ℝ) :=
  m.map (fun r => r.mapIdx (fun j x =>
    (x - colMean (colVals m j)) / colScale (colVals m j)))

/-- Models `KNNRecommendationService.build_product_feature_matrix`: the feature
rows in catalog order with the parallel id list, standardized whenever the
matrix is nonempty and the scaler exists (`SKLEARN_AVAILABLE`). -/
noncomputable def build_product_feature_matrix (pyhash : String → ℤ) (sklearn : Bool)
    (products : List Product) : List (List ℝ) × List String :=
  let features := products.map (extract_product_features pyhash)
  let product_ids := products.map (fun p => p.id)
  let feature_matrix :=
    if 0 < features.length ∧ sklearn = true then fit_transform features else features
  (feature_matrix, product_ids)

/-- Squared Euclidean distance between two feature rows. -/
noncomputable def sqDist (v w : List ℝ) : ℝ :=
  ((v.zip w).map (fun xy => (xy.1 - xy.2) ^ 2)).sum

/-- Ordering of row indices by distance to the query vector. -/
noncomputable def knnOrder (m : List (List ℝ)) (query : List ℝ) (i j : ℕ) : Prop :=
  sqDist (m.getD i []) query ≤ sqDist (m.getD j []) query

noncomputable instance (m : List (List ℝ)) (q : List ℝ) :
    DecidableRel (knnOrder m q) := fun i j => by
  unfold knnOrder; exact Real.decidableLE _ _

/-- Models `NearestNeighbors(metric='euclidean').kneighbors`: the `k` row indices
closest to the query, ascending by distance (ties by row order — exact
brute-force search). -/
noncomputable def kneighbors (m : List (List ℝ)) (query : List ℝ) (k : ℕ) : List ℕ :=
  ((List.range m.length).insertionSort (knnOrder m query)).take k

/-- Python `list.index`: first index of the value; `ValueError` is `none`. -/
def pyIndex (target : String) : List String → Option ℕ
  | [] => none
  | s :: rest => if s = target then some 0 else (pyIndex target rest).map (fun k => k + 1)

/-- The collection loop of `get_similar_products_knn`: skip the target
index, append products, stop at `n`. -/
def collectSimilar (all : List Product) (target_idx : ℕ) (n : ℕ) (exclude : Bool) :
    List ℕ → List Product → List Product
  | [], acc => acc
  | i :: rest, acc =>
    if exclude && i == target_idx then collectSimilar all target_idx n exclude rest acc
    else
      let acc' := acc ++ [all.getD i default]
      if n ≤ acc'.length then acc' else collectSimilar all target_idx n exclude rest acc'

/-- Ordering by `abs(p.price - target.price)` ascending (Python `list.sort`
is stable, so ties keep catalog order). -/
def priceDiffLE (target p q : Product) : Prop :=
  |p.price - target.price| ≤ |q.price - target.price|

instance (t : Product) : DecidableRel (priceDiffLE t) := fun p q => by
  unfold priceDiffLE; infer_instance

/-- Models `KNNRecommendationService._simple_similar_products` (no-sklearn
fallback): same category sorted by absolute price difference, else
trending; unknown target also falls back to trending. -/
def simple_similar_products (db : DB) (target_product_id : String) (n : ℕ)
    (all_products : List Product) : List Product :=
  match all_products.find? (fun p => p.id == target_product_id) with
  | none => get_trending_products db n
  | some target =>
    let similar := all_products.filter (fun p =>
      p.id != target_product_id && p.category == target.category)
    if similar.isEmpty then get_trending_products db n
    else (similar.insertionSort (priceDiffLE target)).take n

/-- Models `KNNRecommendationService.get_similar_products_knn`. -/
noncomputable def get_similar_products_knn (pyhash : String → ℤ) (sklearn : Bool)
    (db : DB) (target_product_id : String) (n_recommendations : ℕ)
    (exclude_same_product : Bool) : List Product :=
  let all_products := db.products
  if all_products.length < 2 then []
  else if sklearn = false then
    simple_similar_products db target_product_id n_recommendations all_products
  else
    let fm_ids := build_product_feature_matrix pyhash sklearn all_products
    match pyIndex target_product_id fm_ids.2 with
    | none => []
    | some target_idx =>
      let n_neighbors := min (n_recommendations + 1) all_products.length
      let indices := kneighbors fm_ids.1 (fm_ids.1.getD target_idx []) n_neighbors
      collectSimilar all_products target_idx n_recommendations exclude_same_product
        indices []

/-! ## Personalized -/

/-- The collection loop of `get_personalized_recommendations`: keep
products not already interacted with, stop at `n`. -/
def collectPersonalized (all : List Product) (interacted : List String) (n : ℕ) :
    List ℕ → List Product → List Product
  | [], acc => acc
  | i :: rest, acc =>
    let product := all.getD i default
    if !(interacted.contains product.id) then
      let acc' := acc ++ [product]
      if n ≤ acc'.length then acc' else collectPersonalized all interacted n rest acc'
    else collectPersonalized all interacted n rest acc

/-- Models `np.mean(interacted_features, axis=0)`: column means of the (7-wide)
feature rows. -/
noncomputable def meanVector (vs : List (List ℝ)) : List ℝ :=
  (List.range 7).map (fun j => colMean (colVals vs j))

/-- Core of `get_personalized_recommendations` once the actor filter has
been applied. -/
noncomputable def personalizedCore (pyhash : String → ℤ) (sklearn : Bool) (db : DB)
    (filtered : List UserInteraction) (n : ℕ) : List Product :=
  let interactions := (filtered.insertionSort byCreatedDesc).take 20
  if interactions.isEmpty then get_trending_products db n
  else
    let interacted_product_ids := (interactions.map (fun i => i.product_id)).dedup
    let interacted_products :=
      db.products.filter (fun p => interacted_product_ids.contains p.id)
    if interacted_products.isEmpty then get_trending_products db n
    else if sklearn = false then
      let interacted_categories := (interacted_products.map (fun p => p.category)).dedup
      let recommended := db.products.filter (fun p =>
        !(interacted_product_ids.contains p.id) &&
        interacted_categories.contains p.category)
      if recommended.isEmpty then get_trending_products db n
      else (recommended.insertionSort ratingLE).take n
    else if db.products.length < 2 then []
    else
      let fm_ids := build_product_feature_matrix pyhash sklearn db.products
      let interacted_features := interacted_products.filterMap (fun p =>
        (pyIndex p.id fm_ids.2).map (fun idx => fm_ids.1.getD idx []))
      if interacted_features.isEmpty then get_trending_products db n
      else
        let avg := meanVector interacted_features
        let n_neighbors := min (n + interacted_product_ids.length) db.products.length
        let indices := kneighbors fm_ids.1 avg n_neighbors
        collectPersonalized db.products interacted_product_ids n indices []

/-- Models `KNNRecommendationService.get_personalized_recommendations`. -/
noncomputable def get_personalized_recommendations (pyhash : String → ℤ)
    (sklearn : Bool) (db : DB) (user_id : Option ℕ) (session_id : Option String)
    (n_recommendations : ℕ) : List Product :=
  let base := windowInteractions db 30
  if truthyUser user_id then
    personalizedCore pyhash sklearn db (base.filter (fun i => i.user_id == user_id))
      n_recommendations
  else if truthySession session_id then
    personalizedCore pyhash sklearn db (base.filter (fun i => i.session_id == session_id))
      n_recommendations
  else get_trending_products db n_recommendations

/-! ## Router layer (`app/routers/recommendations.py`) -/

/-- HTTP error outcomes surfaced by the router. -/
inductive RouteError where
  | badRequest : String → RouteError
  | notFound : String → RouteError
  deriving DecidableEq, Repr

/-- Models `valid_types` of the `/track` endpoint. -/
def valid_types : List String := ["view", "click", "add_to_cart", "wishlist", "purchase"]

/-- Models `POST /recommendations/track`: 400 on an invalid interaction type, 404
when the product does not exist, otherwise the tracked interaction. -/
def track_route (db : DB) (product_id interaction_type : String) (user_id : Option ℕ)
    (session_id : Option String) : Except RouteError (UserInteraction × DB) :=
  if !(valid_types.contains interaction_type) then
    .error (.badRequest "Invalid interaction type")
  else if !(db.products.any (fun p => p.id == product_id)) then
    .error (.notFound "Product not found")
  else .ok (track_interaction db product_id interaction_type user_id session_id)

/-- Models `GET /recommendations/for-product/{product_id}`: 404 when the product
does not exist, otherwise the KNN similar products. -/
noncomputable def for_product_route (pyhash : String → ℤ) (sklearn : Bool) (db : DB)
    (product_id : String) (limit : ℕ) : Except RouteError (List Product) :=
  if !(db.products.any (fun p => p.id == product_id)) then
    .error (.notFound "Product not found")
  else .ok (get_similar_products_knn pyhash sklearn db product_id limit true)

/-- Models `GET /recommendations/complete-look/{product_id}`: 404 when the product
does not exist, otherwise the complementary products. -/
def complete_look_route (db : DB) (product_id : String) (limit : ℕ) :
    Except RouteError (List Product) :=
  if !(db.products.any (fun p => p.id == product_id)) then
    .error (.notFound "Product not found")
  else .ok (get_complete_look db product_id limit)

/-! ## Concrete snapshots used as witnesses and counterexamples -/

/-- Catalog row constructor for concrete scenarios. -/
def mkP (id category : String) (sub : Option String) (price rating : ℚ)
    (reviews : ℕ) : Product :=
  { id := id, category := category, sub_category := sub, price := price,
    rating := rating, reviews := reviews, colors := [], sizes := [] }

/-- A fixed stand-in for the process-randomized Python hash. -/
def hash0 : String → ℤ := fun _ => 0

/-- The three-product catalog of the specification's concrete scenario. -/
def dbSpec : DB :=
  { products := [mkP "A" "women" (some "dress") 100 (mkRat 9 2) 10,
                 mkP "B" "women" (some "shoes") 80 4 5,
                 mkP "C" "men" (some "shirt") 50 3 1],
    interactions := [], now := 100 }

/-- Two products in different categories: the degraded similar-items path
has no same-category peer for either and falls back to trending. -/
def dbPair : DB :=
  { products := [mkP "P" "women" (some "dress") 100 (mkRat 9 2) 10,
                 mkP "Q" "men" (some "shirt") 50 3 1],
    interactions := [], now := 100 }

/-- One product and one anonymous session view: distinguishes filtering by
session from ignoring it. -/
def dbSession : DB :=
  { products := [mkP "B" "women" (some "shoes") 80 4 5],
    interactions := [{ user_id := none, session_id := some "s",
                       product_id := "B", interaction_type := "view",
                       created_at := 95 }],
    now := 100 }

/-- View events for products [P3, P1, P3, P2, P1] in chronological order
(oldest first) under session `s1`: the recently-viewed scenario of the
specification. -/
def dbViews : DB :=
  { products := [mkP "P1" "women" none 10 4 1,
                 mkP "P2" "women" none 20 4 1,
                 mkP "P3" "women" none 30 4 1],
    interactions :=
      [{ user_id := none, session_id := some "s1", product_id := "P3",
         interaction_type := "view", created_at := 91 },
       { user_id := none, session_id := some "s1", product_id := "P1",
         interaction_type := "view", created_at := 92 },
       { user_id := none, session_id := some "s1", product_id := "P3",
         interaction_type := "view", created_at := 93 },
       { user_id := none, session_id := some "s1", product_id := "P2",
         interaction_type := "view", created_at := 94 },
       { user_id := none, session_id := some "s1", product_id := "P1",
         interaction_type := "view", created_at := 95 }],
    now := 100 }

/-- Five purchases of X and 20 views of Y by user 42 within the window: the
weighted-personalization scenario of the specification. -/
def dbWeighted : DB :=
  { products := [mkP "X" "women" (some "dress") 100 4 10,
                 mkP "Y" "men" (some "shirt") 50 4 10,
                 mkP "Z" "women" (some "skirt") 90 (mkRat 9 2) 10,
                 mkP "W" "men" (some "pants") 55 (mkRat 24 5) 10],
    interactions :=
      List.replicate 5 { user_id := some 42, session_id := none,
                         product_id := "X", interaction_type := "purchase",
                         created_at := 90 } ++
      List.replicate 20 { user_id := some 42, session_id := none,
                          product_id := "Y", interaction_type := "view",
                          created_at := 90 },
    now := 100 }

/-- Target T with two same-category peers at different price distances and
one other-category product: exercises the degraded similar-items order. -/
def dbDegraded : DB :=
  { products := [mkP "T" "women" (some "dress") 100 4 10,
                 mkP "A" "women" (some "tops") 80 5 10,
                 mkP "B" "women" (some "skirt") 95 3 10,
                 mkP "C" "men" (some "shirt") 10 5 10],
    interactions := [], now := 100 }

/-- A one-product catalog (used for unknown-product routes). -/
def dbOne : DB :=
  { products := [mkP "A" "women" (some "dress") 100 (mkRat 9 2) 10],
    interactions := [], now := 100 }

/-- The interaction rows that `get_weighted_personalized_recommendations`
processes in the specification's weighted scenario (user 42). -/
def wIntsWeighted : List UserInteraction :=
  (windowInteractions dbWeighted 30).filter (fun i => i.user_id == some 42)

/-! # Theorems -/

theorem length_trending (db : DB) (n : ℕ) :
    (get_trending_products db n).length = min n db.products.length := by
  unfold get_trending_products
  by_cases h : ((db.products.insertionSort (trendLE db)).take n).length < n
  · simp only [h, if_true]
    have hlen : ((db.products.insertionSort (trendLE db)).take n).length
        = min n db.products.length := by
      simp [List.length_take, List.length_insertionSort]
    have hN : db.products.length < n := by
      rcases Nat.lt_or_ge db.products.length n with h' | h'
      · exact h'
      · exfalso; rw [hlen] at h; omega
    have htake : ((db.products.insertionSort (trendLE db)).take n)
        = db.products.insertionSort (trendLE db) := by
      apply List.take_of_length_le
      simp [List.length_insertionSort]; omega
    have hadd : (db.products.filter
        (fun p => !(((((db.products.insertionSort (trendLE db)).take n).map
          (fun q => q.id)).contains p.id)))) = [] := by
      rw [List.filter_eq_nil_iff]
      intro p hp
      have hmem : p ∈ (db.products.insertionSort (trendLE db)).take n := by
        rw [htake]; exact (List.mem_insertionSort _).mpr hp
      have : p.id ∈ ((db.products.insertionSort (trendLE db)).take n).map
          (fun q => q.id) := List.mem_map_of_mem _ hmem
      rw [List.map_take] at this
      simp [this]
    rw [hadd]
    simp [hlen]
  · simp only [h, if_false]
    simp only [List.length_take, List.length_insertionSort] at *

theorem trending_pairwise (db : DB) (n : ℕ) :
    (get_trending_products db n).Pairwise (trendLE db) := by
  unfold get_trending_products
  have hsorted : (db.products.insertionSort (trendLE db)).Sorted (trendLE db) :=
    List.sorted_insertionSort _ _
  by_cases h : ((db.products.insertionSort (trendLE db)).take n).length < n
  · simp only [h, if_true]
    have hN : db.products.length < n := by
      simp only [List.length_take, List.length_insertionSort] at h; omega
    have htake : ((db.products.insertionSort (trendLE db)).take n)
        = db.products.insertionSort (trendLE db) := by
      apply List.take_of_length_le
      simp [List.length_insertionSort]; omega
    have hadd : (db.products.filter
        (fun p => !(((((db.products.insertionSort (trendLE db)).take n).map
          (fun q => q.id)).contains p.id)))) = [] := by
      rw [List.filter_eq_nil_iff]
      intro p hp
      have hmem : p ∈ (db.products.insertionSort (trendLE db)).take n := by
        rw [htake]; exact (List.mem_insertionSort _).mpr hp
      have : p.id ∈ ((db.products.insertionSort (trendLE db)).take n).map
          (fun q => q.id) := List.mem_map_of_mem _ hmem
      rw [List.map_take] at this
      simp [this]
    rw [hadd]
    simpa using ((htake.symm ▸ hsorted : ((db.products.insertionSort
      (trendLE db)).take n).Sorted (trendLE db)))
  · simp only [h, if_false]
    exact hsorted.sublist (List.take_sublist _ _)

/-- Models `pyIndex` misses exactly the absent values. -/
theorem pyIndex_eq_none_of_not_mem {t : String} {l : List String} (h : t ∉ l) :
    pyIndex t l = none := by
  induction l with
  | nil => rfl
  | cons a rest ih =>
    simp only [List.mem_cons, not_or] at h
    simp [pyIndex, Ne.symm h.1, ih h.2]

/-- Models `get_complete_look` of an id absent from the catalog is trending. -/
theorem complete_look_unknown {db : DB} {pid : String}
    (h : ∀ p ∈ db.products, p.id ≠ pid) (n : ℕ) :
    get_complete_look db pid n = get_trending_products db n := by
  unfold get_complete_look
  have hfind : db.products.find? (fun p => p.id == pid) = none := by
    rw [List.find?_eq_none]
    intro p hp
    simpa using h p hp
  rw [hfind]

/-- Models `get_similar_products_knn` with the numeric backend present returns the
empty list on an id absent from the catalog. -/
theorem similar_unknown_empty (pyhash : String → ℤ) {db : DB} {pid : String}
    (h : ∀ p ∈ db.products, p.id ≠ pid) (n : ℕ) (excl : Bool) :
    get_similar_products_knn pyhash true db pid n excl = [] := by
  unfold get_similar_products_knn
  by_cases hlen : db.products.length < 2
  · simp [hlen]
  · have hidx : pyIndex pid (build_product_feature_matrix pyhash true db.products).2
        = none := by
      apply pyIndex_eq_none_of_not_mem
      intro hmem
      have hsnd : (build_product_feature_matrix pyhash true db.products).2
          = db.products.map (fun p => p.id) := rfl
      rw [hsnd] at hmem
      rcases List.mem_map.mp hmem with ⟨p, hp, hpid⟩
      exact h p hp hpid
    simp [hlen, hidx]

/-- C1 (corrected). For a `product_id` with no catalog record, all three
routes that take one — `/track`, `/for-product` and `/complete-look` —
surface a 404 not-found condition (not an empty list); at the service
layer, `get_similar_products_knn` with the backend present returns the
empty list and `get_complete_look` substitutes trending. -/
theorem C1_unknown_product (pyhash : String → ℤ) (sklearn : Bool) (db : DB)
    (pid ity : String) (uid : Option ℕ) (sid : Option String) (n : ℕ)
    (h : ∀ p ∈ db.products, p.id ≠ pid) :
    for_product_route pyhash sklearn db pid n
        = .error (.notFound "Product not found") ∧
    complete_look_route db pid n = .error (.notFound "Product not found") ∧
    (ity ∈ valid_types →
      track_route db pid ity uid sid = .error (.notFound "Product not found")) ∧
    get_similar_products_knn pyhash true db pid n true = [] ∧
    get_complete_look db pid n = get_trending_products db n := by
  have hany : db.products.any (fun p => p.id == pid) = false := by
    rw [List.any_eq_false]
    intro p hp
    simpa using h p hp
  refine ⟨?_, ?_, ?_, similar_unknown_empty pyhash h n true, complete_look_unknown h n⟩
  · unfold for_product_route
    rw [hany]
    rfl
  · unfold complete_look_route
    rw [hany]
    rfl
  · intro hty
    unfold track_route
    have : valid_types.contains ity = true := List.elem_eq_true_of_mem hty
    rw [this, hany]
    rfl

/-- Witness for C1 at a concrete snapshot: product id `Z` is not in the
one-product catalog. -/
theorem C1_unknown_product_witness :
    for_product_route hash0 true dbOne "Z" 6
        = .error (.notFound "Product not found") ∧
    complete_look_route dbOne "Z" 4 = .error (.notFound "Product not found") ∧
    track_route dbOne "Z" "view" none none
        = .error (.notFound "Product not found") ∧
    get_similar_products_knn hash0 true dbOne "Z" 6 true = [] ∧
    get_complete_look dbOne "Z" 4 = get_trending_products dbOne 4 := by
  have h := C1_unknown_product hash0 true dbOne "Z" "view" none none 6 (by decide)
  refine ⟨h.1, ?_, h.2.2.1 (by decide), h.2.2.2.1, h.2.2.2.2⟩
  exact (C1_unknown_product hash0 true dbOne "Z" "view" none none 4 (by decide)).2.1

/-- C1 counterexample: as written, the claim says `similar_to_product` and
`complete_the_look` return an empty (or trending) list for an unknown id;
the routes instead surface a 404 not-found error. -/
theorem C1_counterexample :
    for_product_route hash0 true dbOne "Z" 6
        = .error (.notFound "Product not found") ∧
    complete_look_route dbOne "Z" 4 = .error (.notFound "Product not found") := by
  constructor <;> rfl

/-- C4 (confirmed). `trending(n)` returns exactly `min n catalog_size`
products, and the returned list is ordered by the trending key
(7-day interaction count desc, rating desc, review count desc), so any
products beyond those with recent interactions are exactly the
highest-rated remaining ones. -/
theorem C4_trending_monotonic_padding (db : DB) (n : ℕ) :
    (get_trending_products db n).length = min n db.products.length ∧
    (get_trending_products db n).Pairwise (trendLE db) :=
  ⟨length_trending db n, trending_pairwise db n⟩

/-- C5 (confirmed). `personalized_for` equals `trending(n)` whenever the
actor has no interaction in the 30-day window: with no actor at all, with a
(nonzero) user id that has no window interactions, and with a (nonempty)
session id that has no window interactions. -/
theorem C5_personalized_fallback (pyhash : String → ℤ) (sklearn : Bool) (db : DB)
    (sid : Option String) (n : ℕ) (u : ℕ) (s : String) :
    (get_personalized_recommendations pyhash sklearn db none none n
        = get_trending_products db n) ∧
    (u ≠ 0 →
      (windowInteractions db 30).filter (fun i => i.user_id == some u) = [] →
      get_personalized_recommendations pyhash sklearn db (some u) sid n
        = get_trending_products db n) ∧
    (s ≠ "" →
      (windowInteractions db 30).filter (fun i => i.session_id == some s) = [] →
      get_personalized_recommendations pyhash sklearn db none (some s) n
        = get_trending_products db n) := by
  refine ⟨rfl, ?_, ?_⟩
  · intro hu hfilter
    have ht : truthyUser (some u) = true := by simp [truthyUser, hu]
    unfold get_personalized_recommendations
    rw [ht]
    simp only [if_true]
    rw [hfilter]
    unfold personalizedCore
    simp
  · intro hs hfilter
    have ht : truthySession (some s) = true := by simp [truthySession, hs]
    unfold get_personalized_recommendations
    rw [ht]
    simp only [truthyUser, if_true, Bool.false_eq_true, if_false]
    rw [hfilter]
    unfold personalizedCore
    simp

/-- Witness for C5 at a concrete snapshot with an empty ledger. -/
theorem C5_personalized_fallback_witness :
    get_personalized_recommendations hash0 true dbOne (some 1) none 6
        = get_trending_products dbOne 6 :=
  (C5_personalized_fallback hash0 true dbOne none 6 1 "x").2.1 (by decide) (by decide)

/-- A nonempty catalog yields a nonempty trending list for positive `n`. -/
theorem trending_ne_nil {db : DB} {n : ℕ} (hn : 0 < n) (hN : 0 < db.products.length) :
    get_trending_products db n ≠ [] := by
  have h := length_trending db n
  intro hnil
  rw [hnil] at h
  simp at h
  omega

/-- The degraded similar-items path never returns an empty list when the
catalog has at least one product and `n` is positive. -/
theorem simple_similar_ne_nil {db : DB} {t : String} {n : ℕ}
    (hn : 0 < n) (hN : 0 < db.products.length) :
    simple_similar_products db t n db.products ≠ [] := by
  unfold simple_similar_products
  cases hfind : db.products.find? (fun p => p.id == t) with
  | none => exact trending_ne_nil hn hN
  | some target =>
    by_cases hsim : (db.products.filter (fun p =>
        p.id != t && p.category == target.category)).isEmpty
    · simp only [hsim, if_true]
      exact trending_ne_nil hn hN
    · rw [Bool.not_eq_true] at hsim
      simp only [hsim, Bool.false_eq_true, if_false]
      intro hnil
      have hlen := congrArg List.length hnil
      rw [List.length_take, List.length_insertionSort] at hlen
      simp only [List.length_nil] at hlen
      have hne : (db.products.filter (fun p =>
          p.id != t && p.category == target.category)) ≠ [] := by
        intro hcon
        rw [hcon] at hsim
        simp at hsim
      have hpos := List.length_pos.mpr hne
      omega

set_option maxRecDepth 100000 in
/-- C8 (confirmed). When the multivariate backend is unavailable,
similar-items falls back to same-category products ordered by ascending
absolute price difference (concrete conjunct: target T at price 100 with
same-category peers at 95 and 80 yields [B, A]); and with a catalog of at
least 2 products and positive `n` the degraded result is never empty —
either the category list or the trending substitute fills it. -/
theorem C8_degraded_mode :
    (∀ (pyhash : String → ℤ) (db : DB) (t : String) (n : ℕ),
      0 < n → 2 ≤ db.products.length →
      get_similar_products_knn pyhash false db t n true ≠ []) ∧
    (get_similar_products_knn hash0 false dbDegraded "T" 3 true).map (fun p => p.id)
      = ["B", "A"] := by
  constructor
  · intro pyhash db t n hn hlen
    unfold get_similar_products_knn
    have h2 : ¬ (db.products.length < 2) := by omega
    simp only [h2, if_false, if_pos rfl]
    exact simple_similar_ne_nil hn (by omega)
  · with_unfolding_all decide

set_option maxRecDepth 100000 in
/-- Witness for C8's universal conjunct at a concrete two-product catalog. -/
theorem C8_degraded_mode_witness :
    get_similar_products_knn hash0 false dbPair "P" 1 true ≠ [] :=
  C8_degraded_mode.1 hash0 dbPair "P" 1 (by decide) (by decide)

/-- C10 (corrected). A truthy (nonzero) `user_id` makes `personalized`,
`weighted_personalized` and `recently_viewed` ignore `session_id` entirely;
but a supplied `user_id` of 0 is Python-falsy, so the ledger is then
filtered by `session_id` instead (see the counterexample). -/
theorem C10_user_id_precedence (pyhash : String → ℤ) (sklearn : Bool) (db : DB)
    (u : ℕ) (s : String) (n : ℕ) (hu : u ≠ 0) :
    get_personalized_recommendations pyhash sklearn db (some u) (some s) n
      = get_personalized_recommendations pyhash sklearn db (some u) none n ∧
    get_weighted_personalized_recommendations db (some u) (some s) n
      = get_weighted_personalized_recommendations db (some u) none n ∧
    get_recently_viewed db (some u) (some s) n
      = get_recently_viewed db (some u) none n := by
  have ht : truthyUser (some u) = true := by simp [truthyUser, hu]
  refine ⟨?_, ?_, ?_⟩
  · unfold get_personalized_recommendations
    rw [ht]
    simp
  · unfold get_weighted_personalized_recommendations
    rw [ht]
    simp
  · unfold get_recently_viewed
    rw [ht]
    simp

/-- Witness for C10 at a concrete snapshot. -/
theorem C10_user_id_precedence_witness :
    get_recently_viewed dbSession (some 1) (some "s") 5
      = get_recently_viewed dbSession (some 1) none 5 :=
  (C10_user_id_precedence hash0 true dbSession 1 "s" 5 (by decide)).2.2

/-- C10 counterexample: with `user_id = 0` (falsy in Python) and a session
id supplied, the ledger is filtered by the session — the session id is not
ignored, so a supplied `user_id` does not always take precedence. -/
theorem C10_counterexample :
    get_recently_viewed dbSession (some 0) (some "s") 5
      ≠ get_recently_viewed dbSession (some 0) none 5 := by decide

/-- A successful dict lookup returns the product carrying the looked-up
id. -/
theorem lookupLast_id {ps : List Product} {pid : String} {q : Product}
    (h : lookupLast ps pid = some q) : q.id = pid := by
  unfold lookupLast at h
  rcases List.getLast?_eq_some_iff.mp h with ⟨l', hl'⟩
  have hq : q ∈ ps.filter (fun p => p.id == pid) := by
    rw [hl']; simp
  have := List.of_mem_filter hq
  simpa using this

/-- The dedup loop preserves distinctness of the collected ids. -/
theorem dedupViews_nodup (limit : ℕ) :
    ∀ (ints : List UserInteraction) (seen : List String), seen.Nodup →
      (dedupViews limit ints seen).Nodup := by
  intro ints
  induction ints with
  | nil => intro seen h; exact h
  | cons i rest ih =>
    intro seen h
    unfold dedupViews
    by_cases hc : seen.contains i.product_id
    · simp only [hc, if_true]
      by_cases hl : limit ≤ seen.length
      · simpa [hl]
      · simpa [hl] using ih seen h
    · simp only [hc, Bool.false_eq_true, if_false]
      have hmem : i.product_id ∉ seen := by
        intro hm
        exact hc (List.elem_eq_true_of_mem hm)
      have hnodup' : (seen ++ [i.product_id]).Nodup := by
        rw [List.nodup_append]
        refine ⟨h, List.nodup_singleton _, ?_⟩
        intro x hx hx'
        simp only [List.mem_singleton] at hx'
        exact hmem (hx' ▸ hx)
      have hlen : (seen ++ [i.product_id]).length = seen.length + 1 := by simp
      by_cases hl : limit ≤ seen.length + 1
      · rw [hlen, if_pos hl]
        exact hnodup'
      · rw [hlen, if_neg hl]
        exact ih _ hnodup'

/-- Fetching products for distinct ids yields products with distinct ids. -/
theorem filterMap_lookup_nodup (fetched : List Product) :
    ∀ (seen : List String), seen.Nodup →
      ((seen.filterMap (fun pid => lookupLast fetched pid)).map
        (fun p => p.id)).Nodup := by
  intro seen
  induction seen with
  | nil => intro _; simp
  | cons pid rest ih =>
    intro h
    rcases List.nodup_cons.mp h with ⟨hpid, hrest⟩
    cases hl : lookupLast fetched pid with
    | none => simpa [List.filterMap_cons, hl] using ih hrest
    | some q =>
      simp only [List.filterMap_cons, hl, List.map_cons]
      rw [List.nodup_cons]
      refine ⟨?_, ih hrest⟩
      intro hqmem
      rcases List.mem_map.mp hqmem with ⟨r, hrmem, hrid⟩
      rcases List.mem_filterMap.mp hrmem with ⟨pid', hpid', hlook⟩
      have h1 : r.id = pid' := lookupLast_id hlook
      have h2 : q.id = pid := lookupLast_id hl
      rw [h2] at hrid
      rw [hrid] at h1
      exact hpid (h1 ▸ hpid')

/-- The recently-viewed core never repeats a product id. -/
theorem recentlyViewedCore_nodup (db : DB) (views : List UserInteraction) (n : ℕ) :
    ((recentlyViewedCore db views n).map (fun p => p.id)).Nodup := by
  unfold recentlyViewedCore
  by_cases he : ((views.insertionSort byCreatedDesc).take 50).isEmpty
  · simp [he]
  · simp only [he, Bool.false_eq_true, if_false]
    exact filterMap_lookup_nodup _ _
      (dedupViews_nodup n _ [] List.nodup_nil)

/-- C7 (confirmed). `recently_viewed_for` returns the empty list when no
actor is given and when the (nonzero) user has no view events; its result
never repeats a product id (each product appears only at its most recent
position); and on the specification's scenario — views [P3, P1, P3, P2, P1]
oldest-first for session s1 — it returns [P1, P2, P3] most-recent-first
with duplicates collapsed. -/
theorem C7_recently_viewed (db : DB) (uid : Option ℕ) (sid s2 : Option String)
    (u n : ℕ) :
    get_recently_viewed db none none n = [] ∧
    (u ≠ 0 →
      (db.interactions.filter (fun i => i.interaction_type == "view")).filter
          (fun i => i.user_id == some u) = [] →
      get_recently_viewed db (some u) s2 n = []) ∧
    ((get_recently_viewed db uid sid n).map (fun p => p.id)).Nodup ∧
    (get_recently_viewed dbViews none (some "s1") 3).map (fun p => p.id)
      = ["P1", "P2", "P3"] := by
  refine ⟨rfl, ?_, ?_, by decide⟩
  · intro hu hfilter
    have ht : truthyUser (some u) = true := by simp [truthyUser, hu]
    unfold get_recently_viewed
    rw [ht]
    simp only [if_true]
    rw [hfilter]
    unfold recentlyViewedCore
    simp
  · unfold get_recently_viewed
    by_cases h1 : truthyUser uid = true
    · rw [h1]
      simp only [if_true]
      exact recentlyViewedCore_nodup _ _ _
    · rw [Bool.not_eq_true] at h1
      rw [h1]
      by_cases h2 : truthySession sid = true
      · rw [h2]
        simp only [Bool.false_eq_true, if_false, if_true]
        exact recentlyViewedCore_nodup _ _ _
      · rw [Bool.not_eq_true] at h2
        rw [h2]
        simp

/-- Witness for C7 at a concrete snapshot. -/
theorem C7_recently_viewed_witness :
    get_recently_viewed dbOne (some 1) none 8 = [] :=
  (C7_recently_viewed dbOne (some 1) none none 1 8).2.1 (by decide) (by decide)

/-- Models `scoreOf` on a cons cell. -/
theorem scoreOf_cons (kv : String × ℚ) (l : List (String × ℚ)) (q : String) :
    scoreOf (kv :: l) q = if (kv.1 == q) = true then kv.2 else scoreOf l q := by
  by_cases h : (kv.1 == q) = true
  · simp [scoreOf, List.find?_cons, h]
  · simp only [scoreOf, List.find?_cons, h]
    rw [Bool.not_eq_true] at h
    simp [h]

/-- Updating the entry of a different key leaves a score unchanged. -/
theorem scoreOf_map_update_ne (pid q : String) (w : ℚ) (hq : q ≠ pid) :
    ∀ acc : List (String × ℚ),
      scoreOf (acc.map (fun kv => if kv.1 == pid then (kv.1, kv.2 + w) else kv)) q
        = scoreOf acc q := by
  intro acc
  induction acc with
  | nil => rfl
  | cons kv rest ih =>
    rw [List.map_cons, scoreOf_cons, scoreOf_cons]
    by_cases hk : (kv.1 == pid) = true
    · have hkey : kv.1 = pid := by simpa using hk
      have h1 : (kv.1 == q) = false := by
        rw [beq_eq_false_iff_ne, hkey]
        exact fun hcon => hq hcon.symm
      rw [if_pos hk, if_neg (by simp [h1]), if_neg (by simp [h1])]
      exact ih
    · rw [if_neg hk]
      by_cases h2 : (kv.1 == q) = true
      · rw [if_pos h2, if_pos h2]
      · rw [if_neg h2, if_neg h2]
        exact ih

/-- Updating the entry of a present key adds the weight to its score. -/
theorem scoreOf_map_update_eq (pid : String) (w : ℚ) :
    ∀ acc : List (String × ℚ), acc.any (fun kv => kv.1 == pid) = true →
      scoreOf (acc.map (fun kv => if kv.1 == pid then (kv.1, kv.2 + w) else kv)) pid
        = scoreOf acc pid + w := by
  intro acc
  induction acc with
  | nil => intro h; simp at h
  | cons kv rest ih =>
    intro hany
    rw [List.map_cons, scoreOf_cons, scoreOf_cons]
    by_cases hk : (kv.1 == pid) = true
    · rw [if_pos hk, if_pos (by simp [(by simpa using hk : kv.1 = pid)]),
        if_pos hk]
    · rw [if_neg hk, if_neg (by simpa using hk), if_neg hk]
      have hrest : rest.any (fun kv => kv.1 == pid) = true := by
        rcases List.any_eq_true.mp hany with ⟨x, hx, hxp⟩
        rcases List.mem_cons.mp hx with rfl | hx'
        · exact absurd hxp hk
        · exact List.any_eq_true.mpr ⟨x, hx', hxp⟩
      exact ih hrest

/-- Appending an entry with a key other than `q`: `q`'s score unchanged. -/
theorem scoreOf_append_ne (x : String × ℚ) (q : String) (hx : (x.1 == q) = false) :
    ∀ acc : List (String × ℚ), scoreOf (acc ++ [x]) q = scoreOf acc q := by
  intro acc
  induction acc with
  | nil =>
    rw [List.nil_append, scoreOf_cons]
    simp [hx, scoreOf]
  | cons kv rest ih =>
    rw [List.cons_append, scoreOf_cons, scoreOf_cons]
    by_cases h2 : (kv.1 == q) = true
    · rw [if_pos h2, if_pos h2]
    · rw [if_neg h2, if_neg h2]
      exact ih

/-- Appending an entry with an absent key: its score is the new weight. -/
theorem scoreOf_append_fresh (pid : String) (w : ℚ) :
    ∀ acc : List (String × ℚ), acc.any (fun kv => kv.1 == pid) = false →
      scoreOf (acc ++ [(pid, w)]) pid = w := by
  intro acc
  induction acc with
  | nil =>
    intro _
    rw [List.nil_append, scoreOf_cons]
    simp
  | cons kv rest ih =>
    intro hany
    rw [List.any_cons] at hany
    rcases Bool.or_eq_false_iff.mp hany with ⟨h1, h2⟩
    rw [List.cons_append, scoreOf_cons, if_neg (by simp [h1])]
    exact ih h2

/-- A key absent from the dict has score 0. -/
theorem scoreOf_eq_zero_of_not_any (pid : String) :
    ∀ acc : List (String × ℚ), acc.any (fun kv => kv.1 == pid) = false →
      scoreOf acc pid = 0 := by
  intro acc
  induction acc with
  | nil => intro _; rfl
  | cons kv rest ih =>
    intro hany
    rw [List.any_cons] at hany
    rcases Bool.or_eq_false_iff.mp hany with ⟨h1, h2⟩
    rw [scoreOf_cons, if_neg (by simp [h1])]
    exact ih h2

/-- One `addScore` step adds the weight to exactly the touched key. -/
theorem scoreOf_addScore (acc : List (String × ℚ)) (pid q : String) (w : ℚ) :
    scoreOf (addScore acc pid w) q
      = scoreOf acc q + (if q = pid then w else 0) := by
  unfold addScore
  by_cases hany : acc.any (fun kv => kv.1 == pid) = true
  · rw [if_pos hany]
    by_cases hq : q = pid
    · subst hq
      rw [scoreOf_map_update_eq q w acc hany]
      simp
    · rw [scoreOf_map_update_ne pid q w hq acc]
      simp [hq]
  · rw [if_neg hany]
    rw [Bool.not_eq_true] at hany
    by_cases hq : q = pid
    · subst hq
      rw [scoreOf_append_fresh q w acc hany, scoreOf_eq_zero_of_not_any q acc hany]
      simp
    · rw [scoreOf_append_ne (pid, w) q
        (by rw [beq_eq_false_iff_ne]; exact fun hcon => hq hcon.symm) acc]
      simp [hq]

/-- The accumulated score of a product is the sum of the weights of its
interaction events. -/
theorem scoreOf_productScores (ints : List UserInteraction) (q : String) :
    scoreOf (productScores ints) q
      = ((ints.filter (fun i => i.product_id == q)).map
          (fun i => interactionWeight i.interaction_type)).sum := by
  suffices h : ∀ acc : List (String × ℚ),
      scoreOf (ints.foldl (fun acc i =>
          addScore acc i.product_id (interactionWeight i.interaction_type)) acc) q
        = scoreOf acc q + ((ints.filter (fun i => i.product_id == q)).map
            (fun i => interactionWeight i.interaction_type)).sum by
    have h0 := h []
    have hz : scoreOf ([] : List (String × ℚ)) q = 0 := rfl
    rw [hz, zero_add] at h0
    exact h0
  induction ints with
  | nil => intro acc; simp
  | cons i rest ih =>
    intro acc
    rw [List.foldl_cons, ih, scoreOf_addScore]
    by_cases hi : (i.product_id == q) = true
    · have hq : q = i.product_id := ((by simpa using hi : i.product_id = q)).symm
      rw [List.filter_cons, if_pos hi, List.map_cons, List.sum_cons, if_pos hq]
      ring
    · have hq : ¬ (q = i.product_id) := by
        intro h
        exact hi (by simp [h])
      rw [List.filter_cons, if_neg hi, if_neg hq]
      ring

set_option maxRecDepth 800000 in
/-- C6 (confirmed). Weighted personalization sums, per product, the weight
of each interaction event by kind (purchase 5, add-to-cart 3, wishlist 2,
click 1.5, view 1 — the general conjunct), and in the specification's
scenario (5 purchases of X, 20 views of Y) X scores 25 over Y's 20, so the
top-product list ranks X first and the derived preferred-category set
includes X's category `women`. -/
theorem C6_weighted_scoring :
    (∀ (ints : List UserInteraction) (pid : String),
      scoreOf (productScores ints) pid
        = ((ints.filter (fun i => i.product_id == pid)).map
            (fun i => interactionWeight i.interaction_type)).sum) ∧
    scoreOf (productScores wIntsWeighted) "X" = 25 ∧
    scoreOf (productScores wIntsWeighted) "Y" = 20 ∧
    topProductIds wIntsWeighted = ["X", "Y"] ∧
    "women" ∈ preferredCategories dbWeighted wIntsWeighted ∧
    (get_weighted_personalized_recommendations dbWeighted (some 42) none 6).map
        (fun p => p.id) = ["W", "Z"] := by
  refine ⟨fun ints pid => scoreOf_productScores ints pid, ?_, ?_, ?_, ?_, ?_⟩ <;>
    with_unfolding_all decide

/-- The mean of a one-element column is its entry. -/
theorem colMean_singleton (x : ℝ) : colMean [x] = x := by
  simp [colMean]

/-- Standardizing a one-row matrix centers every entry to zero (`x - mean =
0` for the single row, whatever the scale). -/
theorem fit_transform_singleton (r : List ℝ) :
    fit_transform [r] = [r.map (fun _ => (0:ℝ))] := by
  unfold fit_transform
  rw [List.map_cons, List.map_nil]
  congr 1
  apply List.ext_getElem
  · simp [List.length_mapIdx]
  · intro i h1 h2
    have hi : i < r.length := by simpa [List.length_mapIdx] using h1
    have hmi := List.get_mapIdx r
      (fun j x => (x - colMean (colVals [r] j)) / colScale (colVals [r] j)) i hi h1
    simp only [List.get_eq_getElem] at hmi
    rw [hmi, List.getElem_map]
    have hD : r.getD i 0 = r[i] := by
      rw [List.getD_eq_getElem?_getD, List.getElem?_eq_getElem hi]
      rfl
    have hcol : colVals [r] i = [r.getD i 0] := rfl
    rw [hcol, colMean_singleton, hD]
    simp

/-- Models `build_product_feature_matrix` on a one-product catalog with the scaler
present: the feature row is standardized to the zero vector. -/
theorem build_fst (pyhash : String → ℤ) (sk : Bool) (ps : List Product) :
    (build_product_feature_matrix pyhash sk ps).1
      = if 0 < (ps.map (extract_product_features pyhash)).length ∧ sk = true
        then fit_transform (ps.map (extract_product_features pyhash))
        else ps.map (extract_product_features pyhash) := rfl

theorem build_singleton_zero (pyhash : String → ℤ) (p : Product) :
    (build_product_feature_matrix pyhash true [p]).1
      = [(extract_product_features pyhash p).map (fun _ => (0:ℝ))] := by
  rw [build_fst, List.map_cons, List.map_nil, if_pos ⟨by simp, rfl⟩]
  exact fit_transform_singleton _

/-- C2 (corrected). Normalization is skipped only when the product list is
empty or the scaler is unavailable: the raw feature rows are returned in
those cases. With exactly one product the scaler IS applied (the code's
condition is `len(feature_matrix) > 0`, not `>= 2`), and it maps the single
row to the zero vector, not the raw features. -/
theorem C2_matrix_normalization (pyhash : String → ℤ) (p : Product)
    (ps : List Product) :
    (build_product_feature_matrix pyhash false ps).1
        = ps.map (extract_product_features pyhash) ∧
    (build_product_feature_matrix pyhash true []).1 = [] ∧
    (build_product_feature_matrix pyhash true [p]).1
        = [(extract_product_features pyhash p).map (fun _ => (0:ℝ))] := by
  refine ⟨?_, rfl, build_singleton_zero pyhash p⟩
  rw [build_fst, if_neg]
  rintro ⟨-, hcon⟩
  exact Bool.false_ne_true hcon

/-- C2 counterexample: with a single catalog product of rating 4, the
builder does NOT return the raw feature vector (the claim says it should):
the standardized row is the zero vector while the raw rating entry is 4. -/
theorem C2_counterexample :
    (build_product_feature_matrix hash0 true
        [mkP "A" "women" (some "dress") 100 4 10]).1
      ≠ [extract_product_features hash0 (mkP "A" "women" (some "dress") 100 4 10)] := by
  intro h
  rw [build_singleton_zero] at h
  have h2 := List.cons.injEq _ _ _ _ ▸ h
  simp only [List.cons.injEq, and_true] at h2
  have h3 := congrArg (fun l => l.getD 2 (1:ℝ)) h2
  simp [extract_product_features, hash0, mkP, List.getD_cons_succ,
    List.getD_cons_zero] at h3

/-- A found index of `pyIndex` is in bounds. -/
theorem pyIndex_lt {t : String} : ∀ {l : List String} {i : ℕ},
    pyIndex t l = some i → i < l.length := by
  intro l
  induction l with
  | nil => intro i h; simp [pyIndex] at h
  | cons a rest ih =>
    intro i h
    unfold pyIndex at h
    by_cases ha : a = t
    · rw [if_pos ha] at h
      cases h
      simp
    · rw [if_neg ha] at h
      rcases Option.map_eq_some'.mp h with ⟨k, hk, rfl⟩
      have := ih hk
      simp
      omega

/-- Models `pyIndex` finds the looked-up value. -/
theorem pyIndex_getD {t : String} : ∀ {l : List String} {i : ℕ},
    pyIndex t l = some i → l.getD i "" = t := by
  intro l
  induction l with
  | nil => intro i h; simp [pyIndex] at h
  | cons a rest ih =>
    intro i h
    unfold pyIndex at h
    by_cases ha : a = t
    · rw [if_pos ha] at h
      cases h
      simpa using ha
    · rw [if_neg ha] at h
      rcases Option.map_eq_some'.mp h with ⟨k, hk, rfl⟩
      rw [List.getD_cons_succ]
      exact ih hk

/-- Neighbor indices come from `range`, so they are in matrix bounds. -/
theorem mem_kneighbors_lt {m : List (List ℝ)} {qv : List ℝ} {k i : ℕ}
    (h : i ∈ kneighbors m qv k) : i < m.length := by
  unfold kneighbors at h
  have := List.take_subset _ _ h
  rw [List.mem_insertionSort] at this
  exact List.mem_range.mp this

/-- The feature matrix has one row per product. -/
theorem build_fst_length (pyhash : String → ℤ) (sk : Bool) (ps : List Product) :
    (build_product_feature_matrix pyhash sk ps).1.length = ps.length := by
  rw [build_fst]
  by_cases h : 0 < (ps.map (extract_product_features pyhash)).length ∧ sk = true
  · rw [if_pos h]
    simp [fit_transform]
  · rw [if_neg h]
    simp

/-- The collection loop of the exact-KNN path only emits products whose id
differs from the target id, provided every index it reads does. -/
theorem collectSimilar_not_target (all : List Product) (tIdx n : ℕ) (t : String) :
    ∀ (idxs : List ℕ) (acc : List Product),
      (∀ q ∈ acc, q.id ≠ t) →
      (∀ i ∈ idxs, i ≠ tIdx → (all.getD i default).id ≠ t) →
      ∀ q ∈ collectSimilar all tIdx n true idxs acc, q.id ≠ t := by
  intro idxs
  induction idxs with
  | nil => intro acc hacc _ q hq; exact hacc q hq
  | cons i rest ih =>
    intro acc hacc hidx q hq
    unfold collectSimilar at hq
    by_cases hi : (i == tIdx) = true
    · simp only [Bool.true_and, hi, if_true] at hq
      exact ih acc hacc (fun j hj => hidx j (List.mem_cons_of_mem _ hj)) q hq
    · simp only [Bool.true_and, hi, Bool.false_eq_true, if_false] at hq
      have hne : i ≠ tIdx := by simpa using hi
      have hgood : (all.getD i default).id ≠ t :=
        hidx i (List.mem_cons_self _ _) hne
      have hacc' : ∀ r ∈ acc ++ [all.getD i default], r.id ≠ t := by
        intro r hr
        rcases List.mem_append.mp hr with hr' | hr'
        · exact hacc r hr'
        · rw [List.mem_singleton] at hr'
          exact hr' ▸ hgood
      by_cases hn : n ≤ (acc ++ [all.getD i default]).length
      · rw [if_pos hn] at hq
        exact hacc' q hq
      · rw [if_neg hn] at hq
        exact ih _ hacc' (fun j hj => hidx j (List.mem_cons_of_mem _ hj)) q hq

/-- With distinct catalog ids, the first match of a member's id is the
member itself. -/
theorem find?_self_of_nodup {p : Product} : ∀ {l : List Product},
    (l.map (fun q => q.id)).Nodup → p ∈ l →
    l.find? (fun x => x.id == p.id) = some p := by
  intro l
  induction l with
  | nil => intro _ h; simp at h
  | cons a rest ih =>
    intro hnodup hmem
    rw [List.map_cons, List.nodup_cons] at hnodup
    rcases List.mem_cons.mp hmem with rfl | hmem'
    · simp [List.find?_cons]
    · have hane : (a.id == p.id) = false := by
        rw [beq_eq_false_iff_ne]
        intro hcon
        exact hnodup.1 (hcon ▸ List.mem_map_of_mem _ hmem')
      simp only [List.find?_cons, hane]
      exact ih hnodup.2 hmem'

/-- C3 (corrected). `similar_to_product` never returns the target product in
the exact-KNN path, and in the degraded path whenever the target has at
least one same-category peer; but when the degraded path finds no
same-category peer it substitutes trending, which can contain the target
itself (see the counterexample). -/
theorem C3_no_self_similar (pyhash : String → ℤ) (db : DB) (p : Product) (n : ℕ)
    (hp : p ∈ db.products)
    (hnodup : (db.products.map (fun q => q.id)).Nodup) :
    p.id ∉ (get_similar_products_knn pyhash true db p.id n true).map
        (fun q => q.id) ∧
    ((∃ q ∈ db.products, q.id ≠ p.id ∧ q.category = p.category) →
      p.id ∉ (get_similar_products_knn pyhash false db p.id n true).map
          (fun q => q.id)) := by
  constructor
  · unfold get_similar_products_knn
    by_cases hlen : db.products.length < 2
    · rw [if_pos hlen]
      simp
    · rw [if_neg hlen, if_neg (by simp)]
      dsimp only
      cases hidx : pyIndex p.id
          (build_product_feature_matrix pyhash true db.products).2 with
      | none => simp
      | some tIdx =>
        intro hmem
        rcases List.mem_map.mp hmem with ⟨q, hq, hqid⟩
        have hsnd : (build_product_feature_matrix pyhash true db.products).2
            = db.products.map (fun x => x.id) := rfl
        have htlt : tIdx < db.products.length := by
          have := pyIndex_lt hidx
          rwa [hsnd, List.length_map] at this
        have htid : (db.products.map (fun x => x.id)).getD tIdx "" = p.id := by
          have := pyIndex_getD hidx
          rwa [hsnd] at this
        refine absurd hqid (collectSimilar_not_target db.products tIdx n p.id _ []
          (by intro r hr; simp at hr) ?_ q hq)
        intro i hi hne
        have hilt : i < db.products.length := by
          have := mem_kneighbors_lt hi
          rwa [build_fst_length] at this
        have hgi : (db.products.getD i default).id
            = (db.products.map (fun x => x.id)).getD i "" := by
          rw [List.getD_eq_getElem?_getD, List.getElem?_eq_getElem hilt,
            List.getD_eq_getElem?_getD,
            List.getElem?_eq_getElem (by simpa using hilt), List.getElem_map]
          rfl
        have hilt2 : i < (db.products.map (fun x => x.id)).length := by
          simpa using hilt
        have htlt2 : tIdx < (db.products.map (fun x => x.id)).length := by
          simpa using htlt
        have hgt : (db.products.map (fun x => x.id)).getD tIdx ""
            = (db.products.map (fun x => x.id)).get ⟨tIdx, htlt2⟩ := by
          rw [List.getD_eq_getElem?_getD, List.getElem?_eq_getElem htlt2]
          rfl
        intro hcon
        have hgi2 : (db.products.map (fun x => x.id)).getD i ""
            = (db.products.map (fun x => x.id)).get ⟨i, hilt2⟩ := by
          rw [List.getD_eq_getElem?_getD, List.getElem?_eq_getElem hilt2]
          rfl
        have hii : (db.products.map (fun x => x.id)).get ⟨i, hilt2⟩
            = (db.products.map (fun x => x.id)).get ⟨tIdx, htlt2⟩ := by
          rw [← hgi2, ← hgi, hcon, ← htid, hgt]
        have hfin := (List.Nodup.get_inj_iff hnodup).mp hii
        have : i = tIdx := by simpa using hfin
        exact hne this
  · rintro ⟨w, hw, hwid, hwcat⟩
    unfold get_similar_products_knn
    by_cases hlen : db.products.length < 2
    · rw [if_pos hlen]
      simp
    · rw [if_neg hlen, if_pos rfl]
      unfold simple_similar_products
      rw [find?_self_of_nodup hnodup hp]
      dsimp only
      have hwmem : w ∈ db.products.filter (fun x =>
          x.id != p.id && x.category == p.category) := by
        rw [List.mem_filter]
        exact ⟨hw, by simp [hwid, hwcat]⟩
      have hne : (db.products.filter (fun x =>
          x.id != p.id && x.category == p.category)).isEmpty = false := by
        rw [Bool.eq_false_iff]
        intro hcon
        rw [List.isEmpty_iff] at hcon
        rw [hcon] at hwmem
        simp at hwmem
      rw [hne]
      simp only [Bool.false_eq_true, if_false]
      intro hmem
      rcases List.mem_map.mp hmem with ⟨q, hq, hqid⟩
      have hq1 := List.take_subset _ _ hq
      rw [List.mem_insertionSort] at hq1
      have hq2 := List.of_mem_filter hq1
      rw [Bool.and_eq_true] at hq2
      have : q.id ≠ p.id := by simpa using hq2.1
      exact this hqid

/-- Witness for C3 at the specification's three-product catalog. -/
theorem C3_no_self_similar_witness :
    "A" ∉ (get_similar_products_knn hash0 true dbSpec "A" 6 true).map
        (fun q => q.id) ∧
    "A" ∉ (get_similar_products_knn hash0 false dbSpec "A" 6 true).map
        (fun q => q.id) := by
  have h := C3_no_self_similar hash0 dbSpec
    (mkP "A" "women" (some "dress") 100 (mkRat 9 2) 10) 6 (by decide) (by decide)
  exact ⟨h.1, h.2 ⟨mkP "B" "women" (some "shoes") 80 4 5, by decide, by decide,
    by decide⟩⟩

set_option maxRecDepth 800000 in
/-- C3 counterexample: product P is in the catalog, yet the degraded path
(no same-category peer, so the code falls back to trending) returns P
itself among the similar products for P. -/
theorem C3_counterexample :
    (mkP "P" "women" (some "dress") 100 (mkRat 9 2) 10) ∈ dbPair.products ∧
    "P" ∈ (get_similar_products_knn hash0 false dbPair "P" 2 true).map
        (fun q => q.id) := by
  constructor
  · decide
  · with_unfolding_all decide

/-- The per-subcategory loop of complete-the-look only emits products whose
id differs from the target id. -/
theorem collectComplementary_not_target (db : DB) (target : Product)
    (pid : String) (limit : ℕ) :
    ∀ (subs : List String) (acc : List Product),
      (∀ q ∈ acc, q.id ≠ pid) →
      ∀ q ∈ collectComplementary db target pid limit subs acc, q.id ≠ pid := by
  intro subs
  induction subs with
  | nil => intro acc hacc q hq; exact hacc q hq
  | cons cs rest ih =>
    intro acc hacc q hq
    unfold collectComplementary at hq
    have hacc' : ∀ r ∈ acc ++ ((db.products.filter (fun p =>
        p.category == target.category && p.id != pid &&
        subMatches p cs)).insertionSort ratingLE).take 2, r.id ≠ pid := by
      intro r hr
      rcases List.mem_append.mp hr with hr' | hr'
      · exact hacc r hr'
      · have h1 := List.take_subset _ _ hr'
        rw [List.mem_insertionSort] at h1
        have h2 := List.of_mem_filter h1
        rw [Bool.and_eq_true, Bool.and_eq_true] at h2
        simpa using h2.1.2
    by_cases hn : limit ≤ (acc ++ ((db.products.filter (fun p =>
        p.category == target.category && p.id != pid &&
        subMatches p cs)).insertionSort ratingLE).take 2).length
    · rw [if_pos hn] at hq
      exact hacc' q hq
    · rw [if_neg hn] at hq
      exact ih _ hacc' q hq

/-- C9 (confirmed). For a product in the catalog, `complete_the_look`
never returns the product itself: the complementary-subcategory loop, the
same-category padding and the same-category/different-subcategory fallback
all filter out the target id. -/
theorem C9_complete_look_exclusion (db : DB) (p : Product) (n : ℕ)
    (hp : p ∈ db.products) :
    p.id ∉ (get_complete_look db p.id n).map (fun q => q.id) := by
  unfold get_complete_look
  cases hfind : db.products.find? (fun x => x.id == p.id) with
  | none =>
    rw [List.find?_eq_none] at hfind
    exact absurd (by simp : ((p.id == p.id) = true)) (hfind p hp)
  | some target =>
    dsimp only
    by_cases hsubs : (complementarySubsFor target).isEmpty
    · rw [if_pos hsubs]
      intro hmem
      rcases List.mem_map.mp hmem with ⟨q, hq, hqid⟩
      have h1 := List.take_subset _ _ hq
      rw [List.mem_insertionSort] at h1
      have h2 := List.of_mem_filter h1
      rw [Bool.and_eq_true, Bool.and_eq_true] at h2
      exact absurd hqid (by simpa using h2.1.2)
    · rw [if_neg hsubs]
      intro hmem
      rcases List.mem_map.mp hmem with ⟨q, hq, hqid⟩
      have hq1 := List.take_subset _ _ hq
      have hcol : ∀ r ∈ collectComplementary db target p.id n
          (complementarySubsFor target) [], r.id ≠ p.id :=
        collectComplementary_not_target db target p.id n _ []
          (by intro r hr; simp at hr)
      by_cases hlt : (collectComplementary db target p.id n
          (complementarySubsFor target) []).length < n
      · rw [if_pos hlt] at hq1
        rcases List.mem_append.mp hq1 with hr' | hr'
        · exact absurd hqid (hcol q hr')
        · have h1 := List.take_subset _ _ hr'
          rw [List.mem_insertionSort] at h1
          have h2 := List.of_mem_filter h1
          rw [Bool.and_eq_true, Bool.and_eq_true] at h2
          exact absurd hqid (by simpa using h2.1.2)
      · rw [if_neg hlt] at hq1
        exact absurd hqid (hcol q hq1)

/-- Witness for C9 at the specification's three-product catalog. -/
theorem C9_complete_look_exclusion_witness :
    "A" ∉ (get_complete_look dbSpec "A" 4).map (fun q => q.id) :=
  C9_complete_look_exclusion dbSpec
    (mkP "A" "women" (some "dress") 100 (mkRat 9 2) 10) 4 (by decide)
